import Mathlib

/-!
# Verification of `generate_audio.py`

A shallow embedding of the placeholder-audio generator: per-sample waveform
synthesis (`rawValue`), the decay envelope (`decay`), truncating 16-bit
conversion (`truncInt`, `sample_value`), clamping (`clamp`), the sample list
produced by `generate_tone`, the WAV serialization parameters, and the driver
table iterated by `main`.

Python floats are modelled as real numbers, `int(...)` as truncation toward
zero, and `math.floor` as `Int.floor`.  Strings and the literal driver table
are embedded computably.
-/

open Real

/-- `int(x)` in Python: truncation toward zero. -/
noncomputable def truncInt (x : ℝ) : ℤ :=
  if x < 0 then ⌈x⌉ else ⌊x⌋

/-- `frames = int(duration * sample_rate)` (line 14). -/
noncomputable def frames (duration sample_rate : ℝ) : ℤ :=
  truncInt (duration * sample_rate)

/-- The centered sawtooth factor `2 * (t*frequency - floor(t*frequency + 0.5))`
appearing on line 24. -/
noncomputable def sawFactor (frequency t : ℝ) : ℝ :=
  2 * (t * frequency - (⌊t * frequency + 0.5⌋ : ℤ))

/-- The raw waveform value (lines 19–26): branch on `wave_type`, falling back
to the sine formula for any unknown tag. -/
noncomputable def rawValue (wave_type : String) (amplitude frequency t : ℝ) : ℝ :=
  if wave_type = "sine" then
    amplitude * Real.sin (2 * Real.pi * frequency * t)
  else if wave_type = "square" then
    amplitude * (if Real.sin (2 * Real.pi * frequency * t) > 0 then 1 else -1)
  else if wave_type = "sawtooth" then
    amplitude * sawFactor frequency t
  else
    amplitude * Real.sin (2 * Real.pi * frequency * t)

/-- `decay = max(0.1, 1 - (t / duration) * 0.7)` (line 29). -/
noncomputable def decay (duration t : ℝ) : ℝ :=
  max 0.1 (1 - (t / duration) * 0.7)

/-- `sample_value = int(value * 32767)` after the decay multiplier (line 33). -/
noncomputable def sample_value (wave_type : String)
    (frequency duration amplitude sample_rate : ℝ) (i : ℕ) : ℤ :=
  truncInt (rawValue wave_type amplitude frequency ((i : ℝ) / sample_rate) *
    decay duration ((i : ℝ) / sample_rate) * 32767)

/-- `max(-32767, min(32767, sample_value))` (line 35). -/
def clamp (s : ℤ) : ℤ :=
  max (-32767) (min 32767 s)

/-- The i-th emitted PCM sample of a tone. -/
noncomputable def sampleAt (wave_type : String)
    (frequency duration amplitude sample_rate : ℝ) (i : ℕ) : ℤ :=
  clamp (sample_value wave_type frequency duration amplitude sample_rate i)

/-- The full sample sequence produced by `generate_tone` (lines 12–37): one
sample per index `i` in `range(frames)`. -/
noncomputable def generate_tone (frequency duration sample_rate amplitude : ℝ)
    (wave_type : String) : List ℤ :=
  (List.range (frames duration sample_rate).toNat).map
    (sampleAt wave_type frequency duration amplitude sample_rate)

/-- `struct.pack('<h', s)` (line 36): two little-endian bytes of a 16-bit
signed integer. -/
def pack16le (s : ℤ) : List ℕ :=
  [((s % 65536) % 256).toNat, ((s % 65536) / 256).toNat]

/-- The WAV file written by `generate_tone` (lines 42–46): a mono, 2-byte-wide
container at the given frame rate holding the packed samples in order. -/
structure WavFile where
  numChannels : ℕ
  sampleWidth : ℕ
  frameRate : ℝ
  dataBytes : List ℕ

/-- The WAV output of `generate_tone`: header fields fixed by lines 43–45,
data bytes the concatenation of the packed samples. -/
noncomputable def generate_tone_file (frequency duration sample_rate amplitude : ℝ)
    (wave_type : String) : WavFile :=
  { numChannels := 1
    sampleWidth := 2
    frameRate := sample_rate
    dataBytes :=
      (generate_tone frequency duration sample_rate amplitude wave_type).flatMap pack16le }

/-- `assets_dir` in `main` (line 70). -/
def assets_dir : String := "blockbomb/Assets.xcassets"

/-- The Contents.json record written by `create_dataset_contents`
(lines 52–63): `data` holds one `{filename, idiom}` object and `info` holds
`{author, version}`. -/
structure Contents where
  filename : String
  idiom : String
  author : String
  version : Nat
deriving DecidableEq

/-- `create_dataset_contents` (lines 50–67): the descriptor path written and
the record stored there. -/
def create_dataset_contents (dataset_name filename : String) : String × Contents :=
  ("blockbomb/Assets.xcassets/" ++ dataset_name ++ ".dataset/Contents.json",
   { filename := filename, idiom := "universal", author := "xcode", version := 1 })

/-- The literal `audio_files` table of `main` (lines 75–87): entries are
(name, frequency, duration, wave_type), with frequencies and durations as
exact rationals. -/
def audio_files : List (String × ℚ × ℚ × String) :=
  [("block_place", 440, 0.1, "sine"),
   ("line_clear_single", 523, 0.3, "sine"),
   ("line_clear_double", 659, 0.4, "sine"),
   ("line_clear_triple", 784, 0.5, "sine"),
   ("line_clear_quad", 1047, 0.6, "sine"),
   ("combo_small", 880, 0.4, "sawtooth"),
   ("combo_medium", 1109, 0.5, "sawtooth"),
   ("combo_large", 1319, 0.6, "sawtooth"),
   ("game_over", 220, 1.0, "sine"),
   ("new_high_score", 1760, 1.5, "sine"),
   ("invalid_placement", 150, 0.2, "square")]

/-- One iteration of the driver loop: the wav path handed to `generate_tone`
and the descriptor written by `create_dataset_contents`. -/
structure DriverStep where
  audio_path : String
  contents_path : String
  contents : Contents
deriving DecidableEq

/-- One pass of the loop body of `main` (lines 89–98): derive
`filename = name + ".wav"`, `dataset_path`, `audio_path`, then record the
tone-generation target and the descriptor write. -/
def driverStep (entry : String × ℚ × ℚ × String) : DriverStep :=
  let name := entry.1
  let filename := name ++ ".wav"
  let dataset_path := assets_dir ++ "/" ++ name ++ ".dataset"
  let audio_path := dataset_path ++ "/" ++ filename
  { audio_path := audio_path
    contents_path := (create_dataset_contents name filename).1
    contents := (create_dataset_contents name filename).2 }

/-- The sequence of driver iterations performed by `main`, in table order. -/
def mainSteps : List DriverStep := audio_files.map driverStep

/- ### Helper lemmas -/

lemma truncInt_of_nonneg {x : ℝ} (hx : 0 ≤ x) : truncInt x = ⌊x⌋ := by
  simp [truncInt, not_lt.mpr hx]

lemma truncInt_of_neg {x : ℝ} (hx : x < 0) : truncInt x = ⌈x⌉ := by
  simp [truncInt, hx]

lemma truncInt_abs (x : ℝ) : |truncInt x| = ⌊|x|⌋ := by
  rcases lt_or_le x 0 with hx | hx
  · rw [truncInt_of_neg hx, abs_of_neg hx]
    have hceil : ⌈x⌉ ≤ 0 := Int.ceil_le.mpr (by exact_mod_cast hx.le)
    rw [abs_of_nonpos hceil, ← Int.floor_neg]
  · rw [truncInt_of_nonneg hx, abs_of_nonneg hx,
      abs_of_nonneg (Int.floor_nonneg.mpr hx)]

lemma truncInt_dist_lt_one (x : ℝ) : |(truncInt x : ℝ) - x| < 1 := by
  rcases lt_or_le x 0 with hx | hx
  · rw [truncInt_of_neg hx, abs_lt]
    constructor
    · linarith [Int.le_ceil x]
    · linarith [Int.ceil_lt_add_one x]
  · rw [truncInt_of_nonneg hx, abs_lt]
    constructor
    · linarith [Int.lt_floor_add_one x]
    · linarith [Int.floor_le x]

lemma truncInt_abs_le (x : ℝ) : |(truncInt x : ℝ)| ≤ |x| := by
  have h := truncInt_abs x
  calc |(truncInt x : ℝ)| = ((|truncInt x| : ℤ) : ℝ) := by push_cast; ring
    _ = ((⌊|x|⌋ : ℤ) : ℝ) := by rw [h]
    _ ≤ |x| := Int.floor_le _

lemma decay_pos (duration t : ℝ) : 0 < decay duration t :=
  lt_of_lt_of_le (by norm_num) (le_max_left _ _)

lemma decay_le_one {duration t : ℝ} (hd : 0 < duration) (ht : 0 ≤ t) :
    decay duration t ≤ 1 := by
  have h1 : (0.1 : ℝ) ≤ 1 := by norm_num
  have h2 : 0 ≤ (t / duration) * 0.7 := by positivity
  exact max_le h1 (by linarith)

lemma sawFactor_mem (frequency t : ℝ) :
    -1 ≤ sawFactor frequency t ∧ sawFactor frequency t < 1 := by
  unfold sawFactor
  have h1 : (⌊t * frequency + 0.5⌋ : ℝ) ≤ t * frequency + 0.5 := Int.floor_le _
  have h2 : t * frequency + 0.5 - 1 < (⌊t * frequency + 0.5⌋ : ℝ) :=
    Int.sub_one_lt_floor _
  constructor <;> nlinarith

lemma clamp_lower (s : ℤ) : -32767 ≤ clamp s := le_max_left _ _

lemma clamp_upper (s : ℤ) : clamp s ≤ 32767 :=
  max_le (by norm_num) (min_le_left _ _)

lemma sampleAt_eq_clamp (wave_type : String)
    (frequency duration amplitude sample_rate : ℝ) (i : ℕ) :
    sampleAt wave_type frequency duration amplitude sample_rate i
      = clamp (sample_value wave_type frequency duration amplitude sample_rate i) :=
  rfl

lemma generate_tone_unit : generate_tone 1 1 1 1 "sine" = [0] := by
  have hfr : frames 1 1 = 1 := by
    rw [frames, truncInt_of_nonneg (by norm_num : (0 : ℝ) ≤ 1 * 1)]
    norm_num
  have hsamp : sampleAt "sine" 1 1 1 1 0 = 0 := by
    have hraw : rawValue "sine" 1 1 ((0 : ℕ) / 1) = 0 := by
      simp [rawValue]
    have hsv : sample_value "sine" 1 1 1 1 0 = 0 := by
      rw [sample_value, hraw, zero_mul, zero_mul, truncInt_of_nonneg le_rfl]
      exact Int.floor_zero
    rw [sampleAt_eq_clamp, hsv, clamp]
    norm_num
  rw [generate_tone, hfr]
  rw [show List.range (1 : ℤ).toNat = [0] from rfl]
  simp [hsamp]

lemma rawValue_sine (amplitude frequency t : ℝ) :
    rawValue "sine" amplitude frequency t
      = amplitude * Real.sin (2 * Real.pi * frequency * t) := by
  simp [rawValue]

lemma rawValue_square (amplitude frequency t : ℝ) :
    rawValue "square" amplitude frequency t
      = amplitude * (if Real.sin (2 * Real.pi * frequency * t) > 0 then 1 else -1) := by
  simp [rawValue]

lemma rawValue_sawtooth (amplitude frequency t : ℝ) :
    rawValue "sawtooth" amplitude frequency t = amplitude * sawFactor frequency t := by
  simp [rawValue]

lemma abs_sawFactor_le_one (frequency t : ℝ) : |sawFactor frequency t| ≤ 1 := by
  obtain ⟨h1, h2⟩ := sawFactor_mem frequency t
  rw [abs_le]
  exact ⟨h1, h2.le⟩

lemma abs_rawValue_le (wave_type : String) {amplitude : ℝ} (frequency t : ℝ)
    (ha : 0 ≤ amplitude) :
    |rawValue wave_type amplitude frequency t| ≤ amplitude := by
  have hsin : |Real.sin (2 * Real.pi * frequency * t)| ≤ 1 :=
    abs_le.mpr ⟨Real.neg_one_le_sin _, Real.sin_le_one _⟩
  have habs : |amplitude| = amplitude := abs_of_nonneg ha
  rw [rawValue]
  split_ifs with h1 h2 h3 h4
  · rw [abs_mul, habs]
    exact mul_le_of_le_one_right ha hsin
  · rw [abs_mul, habs, abs_one]
    exact mul_le_of_le_one_right ha le_rfl
  · rw [abs_mul, habs, abs_neg, abs_one]
    exact mul_le_of_le_one_right ha le_rfl
  · rw [abs_mul, habs]
    exact mul_le_of_le_one_right ha (abs_sawFactor_le_one frequency t)
  · rw [abs_mul, habs]
    exact mul_le_of_le_one_right ha hsin

lemma abs_sample_value_le (wave_type : String)
    {duration amplitude sample_rate : ℝ} (frequency : ℝ)
    (hd : 0 < duration) (hsr : 0 < sample_rate) (ha : 0 ≤ amplitude) (i : ℕ) :
    |((sample_value wave_type frequency duration amplitude sample_rate i : ℤ) : ℝ)|
      ≤ amplitude * 32767 := by
  set t := (i : ℝ) / sample_rate with hD
  have ht : 0 ≤ t := by positivity
  have hv : |rawValue wave_type amplitude frequency t| ≤ amplitude :=
    abs_rawValue_le wave_type frequency t ha
  have hdec0 : 0 < decay duration t := decay_pos duration t
  have hdec1 : decay duration t ≤ 1 := decay_le_one hd ht
  have harg : |rawValue wave_type amplitude frequency t * decay duration t * 32767|
      ≤ amplitude * 32767 := by
    rw [abs_mul, abs_mul]
    rw [abs_of_pos hdec0, show |(32767 : ℝ)| = 32767 by norm_num]
    nlinarith [abs_nonneg (rawValue wave_type amplitude frequency t)]
  calc |((sample_value wave_type frequency duration amplitude sample_rate i : ℤ) : ℝ)|
      ≤ |rawValue wave_type amplitude frequency t * decay duration t * 32767| :=
        truncInt_abs_le _
    _ ≤ amplitude * 32767 := harg

/- ### Claims -/

/-- **C1.** For every frequency > 0, duration > 0 and sample_rate > 0,
`generate_tone` produces exactly `⌊duration * sample_rate⌋` PCM samples; in
particular, for frequency 440, duration 0.1, sample_rate 44100 it produces
exactly 4410 samples. -/
theorem C1_sample_count (frequency duration sample_rate amplitude : ℝ)
    (wave_type : String) (hf : 0 < frequency) (hd : 0 < duration)
    (hsr : 0 < sample_rate) :
    ((generate_tone frequency duration sample_rate amplitude wave_type).length : ℤ)
        = ⌊duration * sample_rate⌋ ∧
    (generate_tone 440 0.1 44100 0.3 "sine").length = 4410 := by
  have hpos : (0 : ℝ) < duration * sample_rate := mul_pos hd hsr
  constructor
  · have hfr : frames duration sample_rate = ⌊duration * sample_rate⌋ := by
      rw [frames, truncInt_of_nonneg hpos.le]
    have hnn : 0 ≤ ⌊duration * sample_rate⌋ := Int.floor_nonneg.mpr hpos.le
    simp [generate_tone, hfr, Int.toNat_of_nonneg hnn]
  · have h1 : (0.1 : ℝ) * 44100 = 4410 := by norm_num
    have h2 : frames 0.1 44100 = 4410 := by
      rw [frames, h1, truncInt_of_nonneg (by norm_num)]
      exact_mod_cast Int.floor_intCast 4410
    simp [generate_tone, h2]

/-- Witness for C1 at frequency 440, duration 0.1, sample_rate 44100. -/
theorem C1_sample_count_witness :
    ((0 : ℝ) < 440 ∧ (0 : ℝ) < 0.1 ∧ (0 : ℝ) < 44100) ∧
    ((generate_tone 440 0.1 44100 0.3 "sine").length : ℤ) = ⌊(0.1 : ℝ) * 44100⌋ ∧
    (generate_tone 440 0.1 44100 0.3 "sine").length = 4410 :=
  ⟨⟨by norm_num, by norm_num, by norm_num⟩,
    C1_sample_count 440 0.1 44100 0.3 "sine" (by norm_num) (by norm_num) (by norm_num)⟩

/-- **C2.** Every emitted sample value lies in the inclusive range
[-32767, 32767]; the value -32768 is never emitted. -/
theorem C2_sample_range (frequency duration sample_rate amplitude : ℝ)
    (wave_type : String) (s : ℤ)
    (hs : s ∈ generate_tone frequency duration sample_rate amplitude wave_type) :
    -32767 ≤ s ∧ s ≤ 32767 ∧ s ≠ -32768 := by
  rw [generate_tone, List.mem_map] at hs
  obtain ⟨i, -, rfl⟩ := hs
  rw [sampleAt_eq_clamp]
  refine ⟨clamp_lower _, clamp_upper _, ?_⟩
  have := clamp_lower (sample_value wave_type frequency duration amplitude sample_rate i)
  omega

/-- Witness for C2: the sample 0 is a member of `generate_tone 1 1 1 1 "sine"`
and lies in range. -/
theorem C2_sample_range_witness :
    (0 : ℤ) ∈ generate_tone 1 1 1 1 "sine" ∧
    (-32767 ≤ (0 : ℤ) ∧ (0 : ℤ) ≤ 32767 ∧ (0 : ℤ) ≠ -32768) := by
  have hmem : (0 : ℤ) ∈ generate_tone 1 1 1 1 "sine" := by
    rw [generate_tone_unit]; exact List.mem_singleton.mpr rfl
  exact ⟨hmem, C2_sample_range 1 1 1 1 "sine" 0 hmem⟩

/-- **C3.** `generate_tone` is deterministic: identical argument tuples give
identical sample sequences and identical WAV file contents. -/
theorem C3_deterministic (p q : ℝ × ℝ × ℝ × ℝ × String) (h : p = q) :
    generate_tone p.1 p.2.1 p.2.2.1 p.2.2.2.1 p.2.2.2.2
        = generate_tone q.1 q.2.1 q.2.2.1 q.2.2.2.1 q.2.2.2.2 ∧
    generate_tone_file p.1 p.2.1 p.2.2.1 p.2.2.2.1 p.2.2.2.2
        = generate_tone_file q.1 q.2.1 q.2.2.1 q.2.2.2.1 q.2.2.2.2 := by
  subst h
  exact ⟨rfl, rfl⟩

/-- Witness for C3 at the driver's first tone parameters. -/
theorem C3_deterministic_witness :
    generate_tone 440 0.1 44100 0.3 "sine" = generate_tone 440 0.1 44100 0.3 "sine" ∧
    generate_tone_file 440 0.1 44100 0.3 "sine"
      = generate_tone_file 440 0.1 44100 0.3 "sine" :=
  C3_deterministic (440, 0.1, 44100, 0.3, "sine") (440, 0.1, 44100, 0.3, "sine") rfl

/-- **C4.** The envelope multiplier is `max 0.1 (1 - (t/duration) * 0.7)`;
at `t = 0` it equals 1, and as `t` approaches `duration` it approaches 0.3. -/
theorem C4_decay_envelope (duration : ℝ) (hd : 0 < duration) :
    (∀ t, decay duration t = max 0.1 (1 - (t / duration) * 0.7)) ∧
    decay duration 0 = 1 ∧
    Filter.Tendsto (decay duration) (nhds duration) (nhds 0.3) := by
  refine ⟨fun t => rfl, ?_, ?_⟩
  · rw [decay, zero_div, zero_mul, sub_zero]
    exact max_eq_right (by norm_num)
  · have hc : Continuous (decay duration) := by
      unfold decay
      exact continuous_const.max
        (continuous_const.sub ((continuous_id.div_const duration).mul continuous_const))
    have hval : decay duration duration = 0.3 := by
      rw [decay, div_self hd.ne', one_mul]
      rw [show (1 : ℝ) - 0.7 = 0.3 by norm_num]
      exact max_eq_right (by norm_num)
    have ht := hc.tendsto duration
    rwa [hval] at ht

/-- Witness for C4 at duration 1. -/
theorem C4_decay_envelope_witness :
    (0 : ℝ) < 1 ∧
    ((∀ t, decay 1 t = max 0.1 (1 - (t / 1) * 0.7)) ∧
     decay 1 0 = 1 ∧
     Filter.Tendsto (decay 1) (nhds 1) (nhds 0.3)) :=
  ⟨by norm_num, C4_decay_envelope 1 (by norm_num)⟩

/-- **C5.** For waveform "square" the raw value is
`amplitude * (+1 if sin(2πft) > 0 else -1)`; zero crossings of the sine map
to -1; the square-wave value, before and after the decay multiplier, is never
zero; and the truncated sample is exactly `trunc(amplitude*decay*32767)` or
`trunc(-(amplitude*decay)*32767)`. -/
theorem C5_square_wave (amplitude frequency duration t : ℝ) (ha : amplitude ≠ 0) :
    rawValue "square" amplitude frequency t
        = amplitude * (if Real.sin (2 * Real.pi * frequency * t) > 0 then 1 else -1) ∧
    (Real.sin (2 * Real.pi * frequency * t) = 0 →
        rawValue "square" amplitude frequency t = -amplitude) ∧
    rawValue "square" amplitude frequency t ≠ 0 ∧
    rawValue "square" amplitude frequency t * decay duration t ≠ 0 ∧
    (truncInt (rawValue "square" amplitude frequency t * decay duration t * 32767)
        = truncInt (amplitude * decay duration t * 32767) ∨
     truncInt (rawValue "square" amplitude frequency t * decay duration t * 32767)
        = truncInt (-(amplitude * decay duration t) * 32767)) := by
  have hd0 : decay duration t ≠ 0 := (decay_pos duration t).ne'
  rw [rawValue_square]
  by_cases hpos : Real.sin (2 * Real.pi * frequency * t) > 0
  · rw [if_pos hpos, mul_one]
    refine ⟨rfl, ?_, ha, mul_ne_zero ha hd0, Or.inl rfl⟩
    intro hz
    exact absurd hz hpos.ne'
  · rw [if_neg hpos]
    refine ⟨rfl, fun _ => by ring, ?_, ?_, Or.inr (by ring_nf)⟩
    · exact fun h => ha (by linarith [neg_eq_zero.mp (by linarith [h] : -(amplitude) = 0)])
    · intro h
      rcases mul_eq_zero.mp h with h1 | h2
      · exact ha (by linarith [mul_eq_zero.mp h1])
      · exact hd0 h2

/-- Witness for C5 at amplitude 1, frequency 1, duration 1, t = 0. -/
theorem C5_square_wave_witness :
    (1 : ℝ) ≠ 0 ∧
    (rawValue "square" 1 1 0
        = 1 * (if Real.sin (2 * Real.pi * 1 * 0) > 0 then 1 else -1) ∧
     (Real.sin (2 * Real.pi * 1 * 0) = 0 → rawValue "square" 1 1 0 = -1) ∧
     rawValue "square" 1 1 0 ≠ 0 ∧
     rawValue "square" 1 1 0 * decay 1 0 ≠ 0 ∧
     (truncInt (rawValue "square" 1 1 0 * decay 1 0 * 32767)
         = truncInt (1 * decay 1 0 * 32767) ∨
      truncInt (rawValue "square" 1 1 0 * decay 1 0 * 32767)
         = truncInt (-(1 * decay 1 0) * 32767))) :=
  ⟨by norm_num, C5_square_wave 1 1 1 0 (by norm_num)⟩

/-- **C6.** The real-to-16-bit conversion truncates toward zero: the result is
within distance 1 of the input, its absolute value is the floor of the input's
absolute value (hence never rounds away from zero, unlike round-to-nearest,
as the inputs 1.9 and -1.9 show), and `sample_value` applies exactly this
conversion to the post-envelope value scaled by 32767. -/
theorem C6_trunc_toward_zero :
    (∀ x : ℝ, |(truncInt x : ℝ) - x| < 1 ∧ |truncInt x| = ⌊|x|⌋ ∧
        |(truncInt x : ℝ)| ≤ |x|) ∧
    truncInt (19 / 10) = 1 ∧ truncInt (-(19 / 10)) = -1 ∧
    (∀ (wave_type : String) (frequency duration amplitude sample_rate : ℝ) (i : ℕ),
      sample_value wave_type frequency duration amplitude sample_rate i
        = truncInt (rawValue wave_type amplitude frequency ((i : ℝ) / sample_rate) *
            decay duration ((i : ℝ) / sample_rate) * 32767)) := by
  refine ⟨fun x => ⟨truncInt_dist_lt_one x, truncInt_abs x, truncInt_abs_le x⟩,
    ?_, ?_, fun _ _ _ _ _ _ => rfl⟩
  · rw [truncInt_of_nonneg (by norm_num : (0 : ℝ) ≤ 19 / 10)]
    rw [Int.floor_eq_iff]
    norm_num
  · rw [truncInt_of_neg (by norm_num : -(19 / 10 : ℝ) < 0)]
    rw [Int.ceil_eq_iff]
    norm_num

/-- **C7 counterexample.** At frequency 1 and t = 1/2 the centered sawtooth
factor equals exactly -1, so it does not lie in the open interval (-1, 1). -/
theorem C7_counterexample :
    rawValue "sawtooth" 1 1 (1 / 2) = -1 ∧
    sawFactor 1 (1 / 2) = -1 ∧
    ¬(-1 < sawFactor 1 (1 / 2) ∧ sawFactor 1 (1 / 2) < 1) := by
  have hfac : sawFactor 1 (1 / 2) = -1 := by
    rw [sawFactor]
    rw [show (1 : ℝ) / 2 * 1 + 0.5 = 1 by norm_num]
    rw [Int.floor_one]
    norm_num
  refine ⟨?_, hfac, ?_⟩
  · rw [rawValue_sawtooth, hfac]
    norm_num
  · rw [hfac]
    norm_num

/-- **C7 (amended).** For every t ≥ 0 and frequency > 0, the sawtooth raw
value equals `amplitude * sawFactor frequency t` and the unscaled centered
factor lies in the half-open interval [-1, 1): the upper bound is strict but
the value -1 is attained (when `t*frequency + 0.5` is an integer). -/
theorem C7_sawtooth_range (amplitude frequency t : ℝ) (ht : 0 ≤ t)
    (hf : 0 < frequency) :
    rawValue "sawtooth" amplitude frequency t = amplitude * sawFactor frequency t ∧
    -1 ≤ sawFactor frequency t ∧ sawFactor frequency t < 1 :=
  ⟨rawValue_sawtooth amplitude frequency t,
    (sawFactor_mem frequency t).1, (sawFactor_mem frequency t).2⟩

/-- Witness for the amended C7 at amplitude 1, frequency 1, t = 0. -/
theorem C7_sawtooth_range_witness :
    ((0 : ℝ) ≤ 0 ∧ (0 : ℝ) < 1) ∧
    (rawValue "sawtooth" 1 1 0 = 1 * sawFactor 1 0 ∧
     -1 ≤ sawFactor 1 0 ∧ sawFactor 1 0 < 1) :=
  ⟨⟨le_rfl, by norm_num⟩, C7_sawtooth_range 1 1 0 le_rfl (by norm_num)⟩

/-- **C8.** The driver iterates a literal table of exactly eleven
(name, frequency, duration, waveform) tuples in insertion order; each
iteration targets the wav path `<assets_root>/<name>.dataset/<name>.wav` and
writes, in that dataset's directory, a descriptor whose `filename` field is
`<name>.wav`. -/
theorem C8_driver_table :
    audio_files.length = 11 ∧
    audio_files.map (fun e => e.1)
      = ["block_place", "line_clear_single", "line_clear_double",
         "line_clear_triple", "line_clear_quad", "combo_small", "combo_medium",
         "combo_large", "game_over", "new_high_score", "invalid_placement"] ∧
    mainSteps.map (fun s => s.audio_path)
      = audio_files.map
          (fun e => assets_dir ++ "/" ++ e.1 ++ ".dataset/" ++ e.1 ++ ".wav") ∧
    mainSteps.map (fun s => s.contents_path)
      = audio_files.map
          (fun e => assets_dir ++ "/" ++ e.1 ++ ".dataset/Contents.json") ∧
    mainSteps.map (fun s => s.contents.filename)
      = audio_files.map (fun e => e.1 ++ ".wav") :=
  ⟨rfl, rfl, rfl, rfl, rfl⟩

/-- **C9.** For duration > 0 and sample_rate > 0, every generated sample index
`i < frames` has elapsed time `t = i / sample_rate` strictly below the
duration, so the 0.1 floor of the decay expression is never selected and the
multiplier lies in the half-open interval (0.3, 1]. -/
theorem C9_decay_interval (duration sample_rate : ℝ) (hd : 0 < duration)
    (hsr : 0 < sample_rate) (i : ℕ)
    (hi : (i : ℤ) < frames duration sample_rate) :
    (i : ℝ) / sample_rate < duration ∧
    decay duration ((i : ℝ) / sample_rate)
        = 1 - ((i : ℝ) / sample_rate / duration) * 0.7 ∧
    0.3 < decay duration ((i : ℝ) / sample_rate) ∧
    decay duration ((i : ℝ) / sample_rate) ≤ 1 := by
  have hpos : (0 : ℝ) < duration * sample_rate := mul_pos hd hsr
  have hfr : frames duration sample_rate = ⌊duration * sample_rate⌋ := by
    rw [frames, truncInt_of_nonneg hpos.le]
  rw [hfr] at hi
  have hilt : (i : ℝ) < duration * sample_rate := by
    have h1 : ((i : ℤ) : ℝ) < (⌊duration * sample_rate⌋ : ℝ) := by exact_mod_cast hi
    calc (i : ℝ) = ((i : ℤ) : ℝ) := by push_cast; ring
      _ < (⌊duration * sample_rate⌋ : ℝ) := h1
      _ ≤ duration * sample_rate := Int.floor_le _
  have ht : (i : ℝ) / sample_rate < duration := by
    rw [div_lt_iff₀ hsr]
    linarith
  have htdiv : (i : ℝ) / sample_rate / duration < 1 := by
    rw [div_lt_one hd]
    exact ht
  have htnn : 0 ≤ (i : ℝ) / sample_rate / duration := by positivity
  have hgt : (0.3 : ℝ) < 1 - ((i : ℝ) / sample_rate / duration) * 0.7 := by
    nlinarith
  have hdec : decay duration ((i : ℝ) / sample_rate)
      = 1 - ((i : ℝ) / sample_rate / duration) * 0.7 := by
    rw [decay]
    exact max_eq_right (by linarith)
  refine ⟨ht, hdec, by rw [hdec]; exact hgt, by rw [hdec]; nlinarith⟩

/-- Witness for C9 at duration 1, sample_rate 2, index 0. -/
theorem C9_decay_interval_witness :
    ((0 : ℝ) < 1 ∧ (0 : ℝ) < 2 ∧ ((0 : ℕ) : ℤ) < frames 1 2) ∧
    (((0 : ℕ) : ℝ) / 2 < 1 ∧
     decay 1 (((0 : ℕ) : ℝ) / 2) = 1 - (((0 : ℕ) : ℝ) / 2 / 1) * 0.7 ∧
     0.3 < decay 1 (((0 : ℕ) : ℝ) / 2) ∧
     decay 1 (((0 : ℕ) : ℝ) / 2) ≤ 1) := by
  have hfr : ((0 : ℕ) : ℤ) < frames 1 2 := by
    rw [frames, truncInt_of_nonneg (by norm_num : (0 : ℝ) ≤ 1 * 2)]
    norm_num
  exact ⟨⟨by norm_num, by norm_num, hfr⟩,
    C9_decay_interval 1 2 (by norm_num) (by norm_num) 0 hfr⟩

/-- **C10.** Whenever 0 < amplitude ≤ 1 (with duration > 0, sample_rate > 0),
the clamp is a no-op: the truncated sample already lies in [-32767, 32767],
so `sampleAt` equals the pre-clamp `sample_value`; and at the default
amplitude 0.3 every emitted sample has absolute value at most 9830. -/
theorem C10_clamp_noop (wave_type : String)
    (frequency duration amplitude sample_rate : ℝ)
    (hd : 0 < duration) (hsr : 0 < sample_rate)
    (ha0 : 0 < amplitude) (ha1 : amplitude ≤ 1) (i : ℕ) :
    clamp (sample_value wave_type frequency duration amplitude sample_rate i)
        = sample_value wave_type frequency duration amplitude sample_rate i ∧
    sampleAt wave_type frequency duration amplitude sample_rate i
        = sample_value wave_type frequency duration amplitude sample_rate i ∧
    |sampleAt wave_type frequency duration (0.3 : ℝ) sample_rate i| ≤ 9830 := by
  have hclamp : ∀ s : ℤ, -32767 ≤ s → s ≤ 32767 → clamp s = s := by
    intro s h1 h2
    rw [clamp]
    omega
  have hbound : |sample_value wave_type frequency duration amplitude sample_rate i|
      ≤ 32767 := by
    have h := abs_sample_value_le wave_type frequency hd hsr ha0.le i
    have h2 : amplitude * 32767 ≤ 32767 := by nlinarith
    have h3 : ((|sample_value wave_type frequency duration amplitude sample_rate i| : ℤ) : ℝ)
        ≤ 32767 := by
      rw [Int.cast_abs]
      linarith
    exact_mod_cast h3
  have hb3 : |sample_value wave_type frequency duration (0.3 : ℝ) sample_rate i|
      ≤ 9830 := by
    have h := abs_sample_value_le wave_type frequency hd hsr
      (by norm_num : (0 : ℝ) ≤ 0.3) i
    have h2 : (0.3 : ℝ) * 32767 = 9830.1 := by norm_num
    have h3 : ((|sample_value wave_type frequency duration (0.3 : ℝ) sample_rate i| : ℤ) : ℝ)
        ≤ 9830.1 := by
      rw [Int.cast_abs]
      linarith
    have h4 : ((9830.1 : ℝ) : ℝ) < ((9831 : ℤ) : ℝ) := by norm_num
    have h5 : ((|sample_value wave_type frequency duration (0.3 : ℝ) sample_rate i| : ℤ) : ℝ)
        < ((9831 : ℤ) : ℝ) := lt_of_le_of_lt h3 h4
    have h6 : |sample_value wave_type frequency duration (0.3 : ℝ) sample_rate i| < 9831 := by
      exact_mod_cast h5
    omega
  obtain ⟨hlo, hhi⟩ := abs_le.mp hbound
  obtain ⟨hlo3, hhi3⟩ := abs_le.mp hb3
  have hc : clamp (sample_value wave_type frequency duration amplitude sample_rate i)
      = sample_value wave_type frequency duration amplitude sample_rate i :=
    hclamp _ (by omega) hhi
  have hc3 : sampleAt wave_type frequency duration (0.3 : ℝ) sample_rate i
      = sample_value wave_type frequency duration (0.3 : ℝ) sample_rate i := by
    rw [sampleAt_eq_clamp]
    exact hclamp _ (by omega) (by omega)
  exact ⟨hc, by rw [sampleAt_eq_clamp]; exact hc, by rw [hc3]; exact hb3⟩

/-- Witness for C10 at the sine wave with frequency 1, duration 1,
amplitude 1, sample_rate 1, index 0. -/
theorem C10_clamp_noop_witness :
    ((0 : ℝ) < 1 ∧ (0 : ℝ) < 1 ∧ (0 : ℝ) < 1 ∧ (1 : ℝ) ≤ 1) ∧
    (clamp (sample_value "sine" 1 1 1 1 0) = sample_value "sine" 1 1 1 1 0 ∧
     sampleAt "sine" 1 1 1 1 0 = sample_value "sine" 1 1 1 1 0 ∧
     |sampleAt "sine" 1 1 (0.3 : ℝ) 1 0| ≤ 9830) :=
  ⟨⟨by norm_num, by norm_num, by norm_num, le_rfl⟩,
    C10_clamp_noop "sine" 1 1 1 1 (by norm_num) (by norm_num) (by norm_num) le_rfl 0⟩
